import Mathlib

/-!
Shallow embedding of the tci_itnews core (`src/tci_core.py`) in Lean 4.

Modelling conventions:
* MySQL tables are Lean lists of row structures held in a `DB` record; rows are
  appended on INSERT, so list order models `id` AUTO_INCREMENT insertion order.
* DATE/DATETIME columns are `Int` day/instant numbers, `CURDATE()` / `NOW()` are
  explicit `today` / `now` parameters.
* Python `str.lower()` / `str.strip()` / `s[:n]` / `len` / `str.replace` are
  the executable helpers `pyLower`, `pyStrip`, `pyTake`, `pyLen`, `pyReplace1`
  defined below over the string's character list.
* The YouTube HTTP layer is modelled by an explicit list of per-request
  outcomes; `requests.HTTPError` raised by `raise_for_status` is the outcome
  `PageOutcome.httpError` (caught by the source), any other exception of the
  request layer (connection error, timeout, non-JSON body) is
  `PageOutcome.exn` (not caught by the source).  A function that can let an
  exception escape returns `Except`.
* The AI provider call is modelled by its outcome: either the HTTP/SDK call
  raises, or it returns a response body whose `json.loads` result is an
  optional `Json` value (`none` = parse failure).
-/

namespace TciCore

/-- Python `str.lower()` (ASCII case mapping), character-wise over the
string's characters. -/
def pyLower (s : String) : String := String.mk (s.toList.map Char.toLower)

/-- Python `str.strip()`: drop leading and trailing whitespace. -/
def pyStrip (s : String) : String :=
  String.mk (((s.toList.dropWhile Char.isWhitespace).reverse.dropWhile
    Char.isWhitespace).reverse)

/-- Python `s[:n]`. -/
def pyTake (s : String) (n : Nat) : String := String.mk (s.toList.take n)

/-- Python `len(s)`. -/
def pyLen (s : String) : Nat := s.toList.length

/-- Python `s.replace(pat, sub)` for a single-character pattern `pat`
(the only form the source uses: `replace("T", " ")`, `replace("Z", "")`). -/
def pyReplace1 (s : String) (pat : Char) (sub : List Char) : String :=
  String.mk (s.toList.foldr (fun c acc => (if c = pat then sub else [c]) ++ acc) [])

/-- `videos.status` column: ENUM('NEW','UNWATCHED','WATCHING','WATCHED'). -/
inductive Status where
  | NEW
  | UNWATCHED
  | WATCHING
  | WATCHED
deriving DecidableEq, Repr

/-- The ENUM value as the string MySQL compares it with. -/
def Status.toStr : Status → String
  | .NEW => "NEW"
  | .UNWATCHED => "UNWATCHED"
  | .WATCHING => "WATCHING"
  | .WATCHED => "WATCHED"

/-- Row of the `keywords` table. -/
structure KeywordRow where
  id : Nat
  keyword : String
  source : String
  created_date : Int
  updated_date : Int
deriving DecidableEq, Repr

/-- Row of the `videos` table. -/
structure VideoRow where
  video_id : String
  channel_id : String
  title : String
  description : String
  published_at : String
  status : Status
  last_seen_at : Int
  watch_updated_at : Int
deriving DecidableEq, Repr

/-- Row of the `video_tags` table (UNIQUE KEY on (video_id, tag)). -/
structure TagRow where
  video_id : String
  tag : String
  collected_date : Int
deriving DecidableEq, Repr

/-- The persistent store: the four tables the claims are about. -/
structure DB where
  keywords : List KeywordRow
  videos : List VideoRow
  video_tags : List TagRow
  hidden_videos : List String
deriving DecidableEq, Repr

/-- Payload dict passed to `Database.upsert_video`; `description` is read with
`payload.get("description", "")`, so it may be absent. -/
structure VideoPayload where
  video_id : String
  channel_id : String
  channel_title : String
  title : String
  description : Option String
  published_at : String
deriving DecidableEq, Repr

namespace Database

/-- `Database.hide_video`: `INSERT IGNORE INTO hidden_videos (video_id)`. -/
def hide_video (db : DB) (video_id : String) : DB :=
  if video_id ∈ db.hidden_videos then db
  else { db with hidden_videos := db.hidden_videos ++ [video_id] }

/-- `Database.ensure_seed`: inserts `keyword.lower()` with `source='seed'`,
`created_date = today`, `updated_date = yesterday`; `ON DUPLICATE KEY UPDATE
keyword = keyword` is a no-op when the keyword already exists.  `nextId`
models the AUTO_INCREMENT id handed out on insertion. -/
def ensure_seed (db : DB) (keyword : String) (today : Int) (nextId : Nat) : DB :=
  let kw := pyLower keyword
  if db.keywords.any (fun r => decide (r.keyword = kw)) then db
  else { db with keywords := db.keywords ++
          [{ id := nextId, keyword := kw, source := "seed",
             created_date := today, updated_date := today - 1 }] }

/-- The SQL `WHERE DATE(updated_date) < CURDATE()` filter of
`get_one_keyword_due_for_collect`. -/
def dueKeywordRows (ks : List KeywordRow) (today : Int) : List KeywordRow :=
  ks.filter (fun r => decide (r.updated_date < today))

/-- `ORDER BY updated_date ASC, id ASC`: `a` sorts strictly before `b`. -/
def rowBefore (a b : KeywordRow) : Bool :=
  decide (a.updated_date < b.updated_date) ||
    (decide (a.updated_date = b.updated_date) && decide (a.id < b.id))

/-- `ORDER BY updated_date ASC, id ASC LIMIT 1` over a candidate list: the
first row that no later row strictly precedes. -/
def pickFirstMin : List KeywordRow → Option KeywordRow
  | [] => none
  | r :: rs => some (rs.foldl (fun best x => if rowBefore x best then x else best) r)

/-- `Database.get_one_keyword_due_for_collect`: the single keyword with
`updated_date < today`, oldest `updated_date` first, ties by ascending id. -/
def get_one_keyword_due_for_collect (db : DB) (today : Int) : Option String :=
  (pickFirstMin (dueKeywordRows db.keywords today)).map (fun r => r.keyword)

/-- The row update performed by `Database.set_keyword_updated_today`:
`UPDATE keywords SET updated_date = CURDATE() WHERE keyword = %s` with the
argument lowercased by the caller-side `keyword.lower()`. -/
def markKeywordRows (ks : List KeywordRow) (keyword : String) (today : Int) :
    List KeywordRow :=
  ks.map (fun r => if r.keyword = pyLower keyword
                   then { r with updated_date := today } else r)

/-- `Database.set_keyword_updated_today`. -/
def set_keyword_updated_today (db : DB) (keyword : String) (today : Int) : DB :=
  { db with keywords := markKeywordRows db.keywords keyword today }

/-- `Database.upsert_video`: INSERT with status defaulting to `'NEW'` and
`last_seen_at = watch_updated_at = NOW()`; on duplicate `video_id` overwrite
only `title`, `description`, `published_at`, `last_seen_at`. -/
def upsert_video (db : DB) (p : VideoPayload) (now : Int) : DB :=
  if db.videos.any (fun v => decide (v.video_id = p.video_id)) then
    { db with videos := db.videos.map (fun v =>
        if v.video_id = p.video_id then
          { v with title := p.title, description := p.description.getD "",
                   published_at := p.published_at, last_seen_at := now }
        else v) }
  else
    { db with videos := db.videos ++
        [{ video_id := p.video_id, channel_id := p.channel_id, title := p.title,
           description := p.description.getD "", published_at := p.published_at,
           status := Status.NEW, last_seen_at := now, watch_updated_at := now }] }

/-- One `INSERT ... ON DUPLICATE KEY UPDATE collected_date = VALUES(...)` into
`video_tags` (UNIQUE KEY (video_id, tag)). -/
def save_tag_row (rows : List TagRow) (video_id tag : String) (today : Int) :
    List TagRow :=
  if rows.any (fun r => decide (r.video_id = video_id ∧ r.tag = tag)) then
    rows.map (fun r => if r.video_id = video_id ∧ r.tag = tag
                       then { r with collected_date := today } else r)
  else rows ++ [{ video_id := video_id, tag := tag, collected_date := today }]

/-- `Database.save_tags`: iterates the set `{t for t in tags if t and
len(t.strip()) >= 2}` (modelled as the deduplicated filtered list), normalizes
each element with `strip().lower()[:255]`, skips results shorter than 2, and
upserts each into `video_tags`.  It writes no other table. -/
def save_tags (db : DB) (video_id : String) (tags : List String) (today : Int) : DB :=
  let raws := (tags.filter (fun t => !(decide (t = "")) &&
                 decide (2 ≤ pyLen (pyStrip t)))).dedup
  { db with video_tags := raws.foldl (fun rows raw =>
      let tag := pyTake (pyLower (pyStrip raw)) 255
      if pyLen tag < 2 then rows
      else save_tag_row rows video_id tag today) db.video_tags }

/-- Substring test on character lists: `needle` occurs contiguously in `hay`. -/
def charsInfix (needle : List Char) : List Char → Bool
  | [] => decide (needle = [])
  | c :: cs => needle.isPrefixOf (c :: cs) || charsInfix needle cs

/-- SQL `hay LIKE CONCAT('%', pat, '%')` under the case-insensitive default
collation of the schema. -/
def sqlLike (hay pat : String) : Bool :=
  charsInfix (pyLower pat).toList (pyLower hay).toList

/-- Lexicographic `<` on character lists, modelling DATETIME comparison of the
`'YYYY-MM-DD HH:MM:SS'` strings stored in `published_at`. -/
def charsLt : List Char → List Char → Bool
  | [], [] => false
  | [], _ :: _ => true
  | _ :: _, [] => false
  | a :: as, b :: bs =>
    if a < b then true else if b < a then false else charsLt as bs

/-- The query condition of `list_videos` / `list_videos_count`:
`%s = '' OR v.title LIKE ... OR EXISTS (tag row of v whose tag LIKE ...)`. -/
def matchesQuery (db : DB) (query : String) (v : VideoRow) : Bool :=
  decide (query = "") || sqlLike v.title query ||
    db.video_tags.any (fun t => decide (t.video_id = v.video_id) && sqlLike t.tag query)

/-- The status condition: empty status matches all; `'UNWATCHED'` matches both
`NEW` and `UNWATCHED`; any other status string matches by ENUM equality. -/
def matchesStatus (status : String) (v : VideoRow) : Bool :=
  decide (status = "") ||
    (decide (status = "UNWATCHED") &&
      (decide (v.status = Status.NEW) || decide (v.status = Status.UNWATCHED))) ||
    (!(decide (status = "UNWATCHED")) && decide (Status.toStr v.status = status))

/-- `NOT EXISTS (SELECT 1 FROM hidden_videos h WHERE h.video_id = v.video_id)`. -/
def notHidden (db : DB) (v : VideoRow) : Bool :=
  !(decide (v.video_id ∈ db.hidden_videos))

/-- The shared WHERE clause of `list_videos` and `list_videos_count`. -/
def videoWhere (db : DB) (query status : String) (v : VideoRow) : Bool :=
  matchesQuery db query v && matchesStatus status v && notHidden db v

/-- `FIELD(v.status, 'NEW','UNWATCHED','WATCHING','WATCHED')`. -/
def statusField : Status → Nat
  | .NEW => 1
  | .UNWATCHED => 2
  | .WATCHING => 3
  | .WATCHED => 4

/-- `ORDER BY v.published_at DESC, FIELD(v.status, ...)`: `a` may come before
`b`. -/
def videoOrder (a b : VideoRow) : Prop :=
  charsLt b.published_at.toList a.published_at.toList = true ∨
    (a.published_at = b.published_at ∧ statusField a.status ≤ statusField b.status)

instance : DecidableRel videoOrder := fun _ _ => by
  unfold videoOrder; infer_instance

/-- `Database.list_videos`: filter by query/status/hidden, sort, and apply
`LIMIT %s OFFSET %s` (only when both are given, as in the source); rows are
`(video_id, title, channel_id, published_at, status)`. -/
def list_videos (db : DB) (query status : String)
    (limit offset : Option Nat) : List (String × String × String × String × Status) :=
  let sorted := List.insertionSort videoOrder (db.videos.filter (videoWhere db query status))
  let paged := match limit, offset with
    | some l, some o => (sorted.drop o).take l
    | _, _ => sorted
  paged.map (fun v => (v.video_id, v.title, v.channel_id, v.published_at, v.status))

/-- `Database.list_videos_count`: `COUNT(*)` under the same WHERE clause. -/
def list_videos_count (db : DB) (query status : String) : Nat :=
  (db.videos.filter (videoWhere db query status)).length

/-- `Database.set_watch_status`: `UPDATE videos SET status=%s,
watch_updated_at=NOW() WHERE video_id=%s`. -/
def set_watch_status (db : DB) (video_id : String) (status : Status) (now : Int) : DB :=
  { db with videos := db.videos.map (fun v =>
      if v.video_id = video_id
      then { v with status := status, watch_updated_at := now } else v) }

/-- `Database.get_new_videos`: `(video_id, title, description)` of the
`status = 'NEW'` rows, `ORDER BY id ASC` (= insertion order of the list). -/
def get_new_videos (db : DB) : List (String × String × String) :=
  (db.videos.filter (fun v => decide (v.status = Status.NEW))).map
    (fun v => (v.video_id, v.title, v.description))

end Database

/-- One element of the `items` array of a search/listing response; each field
is read with `dict.get`, so each may be absent. -/
structure SearchItem where
  videoId : Option String
  channelId : Option String
  channelTitle : Option String
  title : Option String
  description : Option String
  publishedAt : Option String
deriving DecidableEq, Repr

/-- A successfully parsed response page. -/
structure Page where
  items : List SearchItem
  nextPageToken : Option String
deriving DecidableEq, Repr

/-- Outcome of one HTTP page request.  `httpError` is a `requests.HTTPError`
from `raise_for_status` (the only exception class the source catches); `exn`
is any other exception the request layer can raise (connection error, timeout,
non-JSON body in `r.json()`), which the source does not catch. -/
inductive PageOutcome where
  | ok (page : Page)
  | httpError
  | exn
deriving DecidableEq, Repr

namespace YouTubeService

/-- Item-to-payload conversion of `search_latest_paginated`: items without an
`id.videoId` are skipped; `channelId` defaults to `""`; `publishedAt` gets
`replace("T", " ").replace("Z", "")`. -/
def searchPayloadOfItem (it : SearchItem) : Option VideoPayload :=
  match it.videoId with
  | none => none
  | some vid => some
      { video_id := vid
        channel_id := it.channelId.getD ""
        channel_title := it.channelTitle.getD ""
        title := it.title.getD ""
        description := some (it.description.getD "")
        published_at := pyReplace1 (pyReplace1 (it.publishedAt.getD "") 'T' [' ']) 'Z' [] }

/-- Item-to-payload conversion of `channel_latest_paginated`: identical except
that `channelId` defaults to the queried channel id. -/
def channelPayloadOfItem (channel_id : String) (it : SearchItem) : Option VideoPayload :=
  match it.videoId with
  | none => none
  | some vid => some
      { video_id := vid
        channel_id := it.channelId.getD channel_id
        channel_title := it.channelTitle.getD ""
        title := it.title.getD ""
        description := some (it.description.getD "")
        published_at := pyReplace1 (pyReplace1 (it.publishedAt.getD "") 'T' [' ']) 'Z' [] }

/-- Does `page > max_pages` hold (`max_pages` may be `None`)? -/
def overMaxPages (max_pages : Option Nat) (page : Nat) : Bool :=
  match max_pages with
  | none => false
  | some m => decide (m < page)

/-- The `while True` pagination loop shared by `search_latest_paginated` and
`channel_latest_paginated`, run against the finite trace `responses` of
per-request outcomes (one entry per HTTP request the loop would issue; the
trace ending means the loop issues no further request).  `pageIdx` counts the
requests already issued.  An `exn` outcome makes the exception escape the
function: the result is `Except.error ()` and the accumulated list is lost. -/
def paginated_loop (parse : SearchItem → Option VideoPayload) (max_pages : Option Nat) :
    Nat → List VideoPayload → List PageOutcome → Except Unit (List VideoPayload)
  | _, acc, [] => .ok acc
  | pageIdx, acc, o :: rest =>
    if overMaxPages max_pages (pageIdx + 1) then .ok acc
    else
      match o with
      | .httpError => .ok acc
      | .exn => .error ()
      | .ok pg =>
        let acc' := acc ++ pg.items.filterMap parse
        match pg.nextPageToken with
        | none => .ok acc'
        | some _ => paginated_loop parse max_pages (pageIdx + 1) acc' rest

/-- `YouTubeService.search_latest_paginated` for a keyword, as a function of
the response trace. -/
def search_latest_paginated (responses : List PageOutcome) (max_pages : Option Nat) :
    Except Unit (List VideoPayload) :=
  paginated_loop searchPayloadOfItem max_pages 0 [] responses

/-- `YouTubeService.channel_latest_paginated` for a channel, as a function of
the response trace. -/
def channel_latest_paginated (channel_id : String) (responses : List PageOutcome)
    (max_pages : Option Nat) : Except Unit (List VideoPayload) :=
  paginated_loop (channelPayloadOfItem channel_id) max_pages 0 [] responses

end YouTubeService

/-- A parsed JSON value, the result of `json.loads` on an AI response body. -/
inductive Json where
  | null
  | bool (b : Bool)
  | num (n : Int)
  | str (s : String)
  | arr (elems : List Json)
  | obj (fields : List (String × Json))

/-- Python truthiness `bool(x)` of a JSON value. -/
def jsonTruthy : Json → Bool
  | .null => false
  | .bool b => b
  | .num n => !(decide (n = 0))
  | .str s => !(decide (s = ""))
  | .arr xs => !xs.isEmpty
  | .obj fs => !fs.isEmpty

/-- Fields of `dict.get(key)` on a JSON object (first binding wins). -/
def jsonGet (key : String) : List (String × Json) → Option Json
  | [] => none
  | (k, v) :: rest => if k = key then some v else jsonGet key rest

/-- Outcome of one chat-completions call made by `classify_technical`:
either the SDK call raises, or it returns a body whose `json.loads` result is
`parsed` (`none` = the body is not valid JSON, so `json.loads` raises). -/
inductive AICallOutcome where
  | raises
  | returns (parsed : Option Json)

/-- The `KeywordAI` constructor arguments. -/
structure AIConfig where
  enabled : Bool
  provider : String
  api_key : String
  model : String
  base_url : String
deriving DecidableEq, Repr

namespace KeywordAI

/-- `bool(out.get("technical", True))` applied to the `json.loads` result,
with every exception (parse failure, `.get` on a non-dict) caught by the
surrounding `except Exception: return True`. -/
def classify_verdict (parsed : Option Json) : Bool :=
  match parsed with
  | none => true
  | some (.obj fields) =>
    match jsonGet "technical" fields with
    | none => true
    | some v => jsonTruthy v
  | some _ => true

/-- The `try:` body of `classify_technical` once a provider call is issued:
a raising call is caught by `except Exception: return True`, a returned body
goes through `classify_verdict`. -/
def classify_call_verdict (call : AICallOutcome) : Bool :=
  match call with
  | .raises => true
  | .returns parsed => classify_verdict parsed

/-- `KeywordAI.classify_technical` as a function of the provider-call outcome.
`env_github_token` models `os.environ.get("GITHUB_TOKEN", "")`; the inner
`if` is the Python local `token = self.api_key or os.environ.get(...)`
inlined. -/
def classify_technical (cfg : AIConfig) (env_github_token : String)
    (call : AICallOutcome) : Bool :=
  if !cfg.enabled then true
  else if cfg.provider = "github_models" then
    if (if cfg.api_key = "" then env_github_token else cfg.api_key) = "" then true
    else classify_call_verdict call
  else if cfg.provider = "openai" ∧ ¬ cfg.api_key = "" then
    classify_call_verdict call
  else true

/-- Outcome of one `_extract_with_openai` / `_extract_with_github_models`
call: `raises` is any exception inside it (network failure, `json.loads`
failure), caught by the `except Exception: pass` of `extract`; `returns ks` is
the keyword list it produced (`[]` when the parsed JSON is not a list). -/
inductive ExtractCallOutcome where
  | raises
  | returns (keywords : List String)

/-- The provider dispatch inside `extract`'s `try:` block; `none` models an
exception reaching the `except Exception: pass`. -/
def ai_extract_result (cfg : AIConfig) (env_github_token : String)
    (call : ExtractCallOutcome) : Option (List String) :=
  if cfg.enabled then
    if cfg.provider = "github_models" then
      let token := if cfg.api_key = "" then env_github_token else cfg.api_key
      if token = "" then some []
      else
        match call with
        | .raises => none
        | .returns ks => some ks
    else if cfg.provider = "openai" ∧ ¬ cfg.api_key = "" then
      match call with
      | .raises => none
      | .returns ks => some ks
    else some []
  else some []

/-- The character class of `re.findall(r"[a-zA-Z0-9가-힣+#\.]{2,}", text)`. -/
def tokenChar (c : Char) : Bool :=
  (decide ('a' ≤ c) && decide (c ≤ 'z')) ||
  (decide ('A' ≤ c) && decide (c ≤ 'Z')) ||
  (decide ('0' ≤ c) && decide (c ≤ '9')) ||
  (decide ('가' ≤ c) && decide (c ≤ '힣')) ||
  decide (c = '+') || decide (c = '#') || decide (c = '.')

/-- Maximal runs of characters satisfying `p`; `acc` holds the current run in
reverse. -/
def charRuns (p : Char → Bool) : List Char → List Char → List (List Char)
  | acc, [] => if acc.isEmpty then [] else [acc.reverse]
  | acc, c :: cs =>
    if p c then charRuns p (c :: acc) cs
    else if acc.isEmpty then charRuns p [] cs
    else acc.reverse :: charRuns p [] cs

/-- `re.findall(r"[a-zA-Z0-9가-힣+#\.]{2,}", text)`: the maximal `tokenChar`
runs of length at least 2, in order. -/
def findallTokens (text : List Char) : List String :=
  ((charRuns tokenChar [] text).filter (fun r => decide (2 ≤ r.length))).map
    (fun r => String.mk r)

/-- The fixed stop-word set of the heuristic. -/
def stopWords : List String := ["영상", "채널", "today", "news", "shorts", "youtube"]

/-- The dedup-preserving-order loop: `for w in words: if w not in stop and w
not in uniq: uniq.append(w)`. -/
def uniqKeep (acc : List String) : List String → List String
  | [] => acc
  | w :: ws =>
    if w ∈ stopWords ∨ w ∈ acc then uniqKeep acc ws
    else uniqKeep (acc ++ [w]) ws

/-- The deterministic fallback of `KeywordAI.extract`: tokenize the lowercased
`f"{title} {description}"`, drop stop words, dedup keeping first occurrences,
return the first 5. -/
def heuristic_extract (title description : String) : List String :=
  let text := pyLower (title ++ " " ++ description)
  (uniqKeep [] (findallTokens text.toList)).take 5

/-- `KeywordAI.extract`: return the AI keywords when the call is configured,
succeeds and yields a non-empty list, otherwise fall back to the heuristic. -/
def extract (cfg : AIConfig) (env_github_token : String) (call : ExtractCallOutcome)
    (title description : String) : List String :=
  match ai_extract_result cfg env_github_token call with
  | some ks => if ks.isEmpty then heuristic_extract title description else ks
  | none => heuristic_extract title description

end KeywordAI

/-- `_tci_collect_for_keyword`'s per-video loop body applied to the already
fetched list: upsert each video, then fetch its tags (`tagsFor`, the fail-open
result of `YouTubeService.video_tags`) and save them when non-empty; returns
the updated store and the count. -/
def tci_collect_videos (db : DB) (fetched : List VideoPayload)
    (tagsFor : String → List String) (today now : Int) : DB × Nat :=
  fetched.foldl
    (fun acc video =>
      let db1 := Database.upsert_video acc.1 video now
      let tags := tagsFor video.video_id
      let db2 := if tags.isEmpty then db1
                 else Database.save_tags db1 video.video_id tags today
      (db2, acc.2 + 1))
    (db, 0)

/-- `_tci_collect_next_keyword`: select the due keyword, run
`_tci_collect_for_keyword` (whose fetch is `search_latest_paginated` on the
trace `pagesFor kw` with `max_pages=None`), then mark the keyword collected.
`Except.error db'` models an exception escaping the tick with the store left
in state `db'`; the fetch runs before any store write, so an escaping fetch
exception leaves the store untouched and skips `set_keyword_updated_today`. -/
def tci_collect_next_keyword (db : DB) (pagesFor : String → List PageOutcome)
    (tagsFor : String → List String) (today now : Int) :
    Except DB (Option String × DB) :=
  match Database.get_one_keyword_due_for_collect db today with
  | none => .ok (none, db)
  | some kw =>
    match YouTubeService.search_latest_paginated (pagesFor kw) none with
    | .error _ => .error db
    | .ok vids =>
      let db1 := (tci_collect_videos db vids tagsFor today now).1
      .ok (some kw, Database.set_keyword_updated_today db1 kw today)

/-- `tci_classify_new_videos`: snapshot the `NEW` videos, then promote each
one the classifier accepts to `UNWATCHED`. -/
def tci_classify_new_videos (db : DB) (aiFor : String → String → Bool) (now : Int) : DB :=
  (Database.get_new_videos db).foldl
    (fun acc v =>
      if aiFor v.2.1 v.2.2 then Database.set_watch_status acc v.1 Status.UNWATCHED now
      else acc)
    db

/-- Prepend a tick's selection (if any) to the list of later selections. -/
def consSel (sel : Option String) (rest : List String) : List String :=
  match sel with
  | none => rest
  | some kw => kw :: rest

/-- `n` consecutive keyword-rotation ticks within one calendar day (`today`
fixed); `pagesAt k` / `tagsAt k` are the external outcomes of tick `k`.  The
selections of the ticks are collected in order; an escaping exception aborts
the run. -/
def run_keyword_ticks (pagesAt : Nat → String → List PageOutcome)
    (tagsAt : Nat → String → List String) (today now : Int) :
    Nat → DB → Except DB (List String × DB)
  | 0, db => .ok ([], db)
  | n + 1, db =>
    match tci_collect_next_keyword db (pagesAt n) (tagsAt n) today now with
    | .error db' => .error db'
    | .ok (sel, db') =>
      match run_keyword_ticks pagesAt tagsAt today now n db' with
      | .error dbf => .error dbf
      | .ok (rest, dbf) => .ok (consSel sel rest, dbf)

/-- The keyword-table effect of one tick: what `get_one_keyword_due_for_collect`
selects and how `set_keyword_updated_today` rewrites the rows. -/
def keyword_rotation_tick (ks : List KeywordRow) (today : Int) :
    Option String × List KeywordRow :=
  match Database.pickFirstMin (Database.dueKeywordRows ks today) with
  | none => (none, ks)
  | some r => (some r.keyword, Database.markKeywordRows ks r.keyword today)

/-- `n` iterations of `keyword_rotation_tick`, collecting the selections. -/
def run_rotation (today : Int) : Nat → List KeywordRow → List String × List KeywordRow
  | 0, ks => ([], ks)
  | n + 1, ks =>
    let t := keyword_rotation_tick ks today
    let rec' := run_rotation today n t.2
    (consSel t.1 rec'.1, rec'.2)

/-- The classification failure modes named by the spec: the AI call throws,
the response body is not valid JSON, or the parsed JSON object lacks the
`technical` key. -/
def classifyFails : AICallOutcome → Prop
  | .raises => True
  | .returns none => True
  | .returns (some (.obj fields)) => jsonGet "technical" fields = none
  | .returns (some _) => False

/-- The token alphabet exactly as the claim words it: alphanumeric (ASCII
letters and digits) or Hangul — written from the spec sentence, to be compared
with the source's `tokenChar`. -/
def specAlnumHangulChar (c : Char) : Bool :=
  (decide ('a' ≤ c) && decide (c ≤ 'z')) ||
  (decide ('A' ≤ c) && decide (c ≤ 'Z')) ||
  (decide ('0' ≤ c) && decide (c ≤ '9')) ||
  (decide ('가' ≤ c) && decide (c ≤ '힣'))

/-! Concrete stores and payloads used to evaluate the theorems below on
concrete inputs. -/

/-- A `KeywordAI` configuration with AI assistance disabled. -/
def cfgAIDisabled : AIConfig :=
  { enabled := false, provider := "github_models", api_key := "",
    model := "openai/o4-mini", base_url := "" }

/-- An empty store. -/
def emptyDB : DB := ⟨[], [], [], []⟩

/-- A store whose only content is one hidden video id. -/
def dbHideW : DB := ⟨[], [], [], ["x"]⟩

/-- A store holding one already-watched video. -/
def dbW5 : DB :=
  ⟨[], [{ video_id := "v1", channel_id := "c", title := "T", description := "d",
          published_at := "2024", status := Status.WATCHED,
          last_seen_at := 5, watch_updated_at := 6 }], [], []⟩

/-- A re-sighting payload for the video of `dbW5` with changed metadata. -/
def pW5 : VideoPayload :=
  { video_id := "v1", channel_id := "c2", channel_title := "ct", title := "T2",
    description := none, published_at := "2025" }

/-- A store holding one keyword that is due on day 10. -/
def dbC4 : DB :=
  ⟨[{ id := 1, keyword := "it", source := "seed", created_date := 0,
      updated_date := 9 }], [], [], []⟩

/-- A store holding two due keywords for exercising the rotation. -/
def dbRot : DB :=
  ⟨[{ id := 1, keyword := "it", source := "seed", created_date := 0,
      updated_date := 3 },
    { id := 2, keyword := "ai", source := "seed", created_date := 0,
      updated_date := 2 }], [], [], []⟩

/-- A store holding one visible and one hidden video. -/
def dbC6 : DB :=
  ⟨[],
   [{ video_id := "v1", channel_id := "c", title := "T1", description := "d",
      published_at := "2024", status := Status.NEW, last_seen_at := 0,
      watch_updated_at := 0 },
    { video_id := "v2", channel_id := "c", title := "T2", description := "d",
      published_at := "2025", status := Status.WATCHED, last_seen_at := 0,
      watch_updated_at := 0 }],
   [], ["v2"]⟩

/-!  ## Theorems  -/

/-- `upsert_video` writes only the videos table. -/
theorem upsert_video_keywords (db : DB) (p : VideoPayload) (now : Int) :
    (Database.upsert_video db p now).keywords = db.keywords := by
  unfold Database.upsert_video
  split <;> rfl

/-- `save_tags` writes only the video_tags table. -/
theorem save_tags_keywords (db : DB) (vid : String) (tags : List String) (d : Int) :
    (Database.save_tags db vid tags d).keywords = db.keywords := rfl

/-- The per-video collection fold never touches the keywords table. -/
theorem tci_collect_videos_fold_keywords (tagsFor : String → List String)
    (today now : Int) :
    ∀ (fetched : List VideoPayload) (acc : DB × Nat),
      (fetched.foldl (fun acc video =>
          let db1 := Database.upsert_video acc.1 video now
          let tags := tagsFor video.video_id
          let db2 := if tags.isEmpty then db1
                     else Database.save_tags db1 video.video_id tags today
          (db2, acc.2 + 1)) acc).1.keywords = acc.1.keywords
  | [], _ => rfl
  | v :: vs, acc => by
    rw [List.foldl_cons]
    rw [tci_collect_videos_fold_keywords tagsFor today now vs _]
    show (if (tagsFor v.video_id).isEmpty then Database.upsert_video acc.1 v now
          else Database.save_tags (Database.upsert_video acc.1 v now) v.video_id
            (tagsFor v.video_id) today).keywords = acc.1.keywords
    by_cases ht : (tagsFor v.video_id).isEmpty
    · rw [if_pos ht, upsert_video_keywords]
    · rw [if_neg ht, save_tags_keywords, upsert_video_keywords]

/-- `_tci_collect_for_keyword` never touches the keywords table. -/
theorem tci_collect_videos_keywords (db : DB) (fetched : List VideoPayload)
    (tagsFor : String → List String) (today now : Int) :
    (tci_collect_videos db fetched tagsFor today now).1.keywords = db.keywords := by
  unfold tci_collect_videos
  exact tci_collect_videos_fold_keywords tagsFor today now fetched (db, 0)

/-- The running best of the `ORDER BY ... LIMIT 1` fold is one of the
candidates. -/
theorem foldl_pick_mem :
    ∀ (rs : List KeywordRow) (r0 : KeywordRow),
      rs.foldl (fun best x => if Database.rowBefore x best then x else best) r0
        ∈ r0 :: rs
  | [], r0 => List.mem_singleton_self r0
  | x :: xs, r0 => by
    rw [List.foldl_cons]
    have h := foldl_pick_mem xs (if Database.rowBefore x r0 then x else r0)
    rcases List.mem_cons.mp h with h1 | h1
    · rw [h1]
      by_cases hb : Database.rowBefore x r0 = true
      · rw [if_pos hb]
        exact List.mem_cons_of_mem _ (List.mem_cons_self x xs)
      · rw [if_neg hb]
        exact List.mem_cons_self r0 _
    · exact List.mem_cons_of_mem _ (List.mem_cons_of_mem _ h1)

/-- A selected row belongs to the candidate list. -/
theorem pickFirstMin_mem (l : List KeywordRow) (r : KeywordRow)
    (h : Database.pickFirstMin l = some r) : r ∈ l := by
  cases l with
  | nil => exact absurd h (by rw [Database.pickFirstMin]; exact Option.noConfusion)
  | cons x xs =>
    rw [Database.pickFirstMin] at h
    have he := Option.some.inj h
    rw [← he]
    exact foldl_pick_mem xs x

/-- A non-empty candidate list always yields a selection. -/
theorem pickFirstMin_of_ne_nil (l : List KeywordRow) (h : l ≠ []) :
    ∃ r, Database.pickFirstMin l = some r := by
  cases l with
  | nil => exact absurd rfl h
  | cons x xs => exact ⟨_, rfl⟩

/-- Marking a keyword collected does not change which keywords exist. -/
theorem markKeywordRows_map_keyword (ks : List KeywordRow) (kw : String) (today : Int) :
    (Database.markKeywordRows ks kw today).map (fun r => r.keyword) =
      ks.map (fun r => r.keyword) := by
  unfold Database.markKeywordRows
  rw [List.map_map]
  refine List.map_congr_left (fun r _ => ?_)
  by_cases h : r.keyword = pyLower kw
  · simp [Function.comp, if_pos h]
  · simp [Function.comp, if_neg h]

/-- Marking preserves the all-lowercase row invariant. -/
theorem markKeywordRows_lower (ks : List KeywordRow) (kw : String) (today : Int)
    (h : ∀ r ∈ ks, pyLower r.keyword = r.keyword) :
    ∀ r ∈ Database.markKeywordRows ks kw today, pyLower r.keyword = r.keyword := by
  intro r hr
  rcases List.mem_map.mp hr with ⟨x, hx, hfx⟩
  by_cases hk : x.keyword = pyLower kw
  · rw [if_pos hk] at hfx
    rw [← hfx]
    exact h x hx
  · rw [if_neg hk] at hfx
    rw [← hfx]
    exact h x hx

/-- After a keyword (stored lowercase) is marked collected, the due set is the
old due set minus every row carrying that keyword. -/
theorem dueKeywordRows_mark (kw : String) (today : Int) (hkw : pyLower kw = kw) :
    ∀ ks : List KeywordRow,
      Database.dueKeywordRows (Database.markKeywordRows ks kw today) today =
        (Database.dueKeywordRows ks today).filter
          (fun r => !(decide (r.keyword = kw)))
  | [] => rfl
  | r :: ks => by
    have ih := dueKeywordRows_mark kw today hkw ks
    unfold Database.markKeywordRows Database.dueKeywordRows at ih ⊢
    rw [hkw] at ih ⊢
    by_cases hk : r.keyword = kw <;> by_cases hdue : r.updated_date < today <;>
      simp [hk, hdue, ih]

/-- With duplicate-free keywords, removing the rows carrying a member's
keyword removes exactly that one row, up to permutation of the keyword
lists. -/
theorem keyword_filter_perm :
    ∀ (l : List KeywordRow) (r : KeywordRow),
      (l.map (fun x => x.keyword)).Nodup → r ∈ l →
      (l.map (fun x => x.keyword)).Perm
        (r.keyword :: ((l.filter (fun x => !(decide (x.keyword = r.keyword)))).map
          (fun x => x.keyword)))
  | [], r, _, hr => absurd hr (List.not_mem_nil r)
  | x :: xs, r, hnd, hr => by
    rw [List.map_cons] at hnd ⊢
    have hnd' := List.nodup_cons.mp hnd
    by_cases hk : x.keyword = r.keyword
    · have hxs : xs.filter (fun y => !(decide (y.keyword = r.keyword))) = xs := by
        apply List.filter_eq_self.mpr
        intro y hy
        simp only [Bool.not_eq_true']
        apply decide_eq_false
        intro hyk
        exact hnd'.1 (List.mem_map.mpr ⟨y, hy, by rw [hyk, hk]⟩)
      rw [List.filter_cons, if_neg (by simp [hk]), hxs, hk]
    · have hr' : r ∈ xs := by
        rcases List.mem_cons.mp hr with rfl | h
        · exact absurd rfl hk
        · exact h
      have ih := keyword_filter_perm xs r hnd'.2 hr'
      rw [List.filter_cons, if_pos (by simp [hk]), List.map_cons]
      exact (ih.cons x.keyword).trans (List.Perm.swap r.keyword x.keyword _)

/-- One-step unfolding of `run_rotation`. -/
theorem run_rotation_succ (today : Int) (n : Nat) (ks : List KeywordRow) :
    run_rotation today (n + 1) ks =
      (consSel (keyword_rotation_tick ks today).1
        (run_rotation today n (keyword_rotation_tick ks today).2).1,
       (run_rotation today n (keyword_rotation_tick ks today).2).2) := rfl

/-- The tick selects nothing on an empty due set. -/
theorem keyword_rotation_tick_none (ks : List KeywordRow) (today : Int)
    (h : Database.pickFirstMin (Database.dueKeywordRows ks today) = none) :
    keyword_rotation_tick ks today = (none, ks) := by
  unfold keyword_rotation_tick
  rw [h]

/-- The tick selects the minimal due row and marks it. -/
theorem keyword_rotation_tick_some (ks : List KeywordRow) (today : Int)
    (r : KeywordRow)
    (h : Database.pickFirstMin (Database.dueKeywordRows ks today) = some r) :
    keyword_rotation_tick ks today =
      (some r.keyword, Database.markKeywordRows ks r.keyword today) := by
  unfold keyword_rotation_tick
  rw [h]

/-- Fairness of the keyword rotation at the keyword-table level: running as
many ticks as there are due rows selects exactly the due keywords, each
once. -/
theorem run_rotation_perm (today : Int) :
    ∀ (n : Nat) (ks : List KeywordRow),
      (∀ r ∈ ks, pyLower r.keyword = r.keyword) →
      (ks.map (fun r => r.keyword)).Nodup →
      (Database.dueKeywordRows ks today).length = n →
      (run_rotation today n ks).1.Perm
        ((Database.dueKeywordRows ks today).map (fun r => r.keyword))
  | 0, ks, _, _, hlen => by
    have hnil : Database.dueKeywordRows ks today = [] := List.length_eq_zero.mp hlen
    rw [hnil, List.map_nil]
    exact List.Perm.refl _
  | n + 1, ks, hlc, hnd, hlen => by
    have hne : Database.dueKeywordRows ks today ≠ [] := by
      intro h
      rw [h] at hlen
      exact Nat.noConfusion hlen
    obtain ⟨r, hpick⟩ := pickFirstMin_of_ne_nil _ hne
    have hrdue : r ∈ Database.dueKeywordRows ks today := pickFirstMin_mem _ _ hpick
    have hrks : r ∈ ks := (List.mem_filter.mp hrdue).1
    have hklw : pyLower r.keyword = r.keyword := hlc r hrks
    have hdnd : ((Database.dueKeywordRows ks today).map (fun x => x.keyword)).Nodup :=
      ((List.filter_sublist ks).map (fun x => x.keyword)).nodup hnd
    have hfperm := keyword_filter_perm (Database.dueKeywordRows ks today) r hdnd hrdue
    have hmark := dueKeywordRows_mark r.keyword today hklw ks
    have hlen' : (Database.dueKeywordRows
        (Database.markKeywordRows ks r.keyword today) today).length = n := by
      rw [hmark]
      have hle := hfperm.length_eq
      rw [List.length_map, List.length_cons, List.length_map] at hle
      omega
    have hmlc := markKeywordRows_lower ks r.keyword today hlc
    have hmnd : ((Database.markKeywordRows ks r.keyword today).map
        (fun x => x.keyword)).Nodup := by
      rw [markKeywordRows_map_keyword]
      exact hnd
    have ih := run_rotation_perm today n (Database.markKeywordRows ks r.keyword today)
      hmlc hmnd hlen'
    rw [run_rotation_succ, keyword_rotation_tick_some ks today r hpick]
    show (consSel (some r.keyword)
        (run_rotation today n (Database.markKeywordRows ks r.keyword today)).1).Perm _
    rw [hmark] at ih
    exact (ih.cons r.keyword).trans hfperm.symm

/-- The one-step unfolding of the pagination loop on a non-empty trace. -/
theorem paginated_loop_cons (parse : SearchItem → Option VideoPayload)
    (mp : Option Nat) (pageIdx : Nat) (acc : List VideoPayload)
    (o : PageOutcome) (rest : List PageOutcome) :
    YouTubeService.paginated_loop parse mp pageIdx acc (o :: rest) =
      if YouTubeService.overMaxPages mp (pageIdx + 1) = true then .ok acc
      else match o with
        | .httpError => .ok acc
        | .exn => .error ()
        | .ok pg =>
          match pg.nextPageToken with
          | none => .ok (acc ++ pg.items.filterMap parse)
          | some _ => YouTubeService.paginated_loop parse mp (pageIdx + 1)
              (acc ++ pg.items.filterMap parse) rest := rfl

/-- A trace without an uncaught-exception outcome never makes the pagination
loop raise: the result is always `Except.ok`. -/
theorem paginated_loop_no_exn (parse : SearchItem → Option VideoPayload)
    (mp : Option Nat) :
    ∀ (responses : List PageOutcome) (pageIdx : Nat) (acc : List VideoPayload),
      ¬ PageOutcome.exn ∈ responses →
      ∃ l, YouTubeService.paginated_loop parse mp pageIdx acc responses = .ok l
  | [], _, acc, _ => ⟨acc, rfl⟩
  | o :: rest, pageIdx, acc, h => by
    rw [paginated_loop_cons]
    by_cases hover : YouTubeService.overMaxPages mp (pageIdx + 1) = true
    · rw [if_pos hover]
      exact ⟨acc, rfl⟩
    · rw [if_neg hover]
      cases o with
      | httpError => exact ⟨acc, rfl⟩
      | exn => exact absurd (List.mem_cons_self _ _) h
      | ok pg =>
        show ∃ l, (match pg.nextPageToken with
          | none => Except.ok (acc ++ pg.items.filterMap parse)
          | some _ => YouTubeService.paginated_loop parse mp (pageIdx + 1)
              (acc ++ pg.items.filterMap parse) rest) = Except.ok l
        cases htok : pg.nextPageToken with
        | none => exact ⟨_, rfl⟩
        | some tk =>
          exact paginated_loop_no_exn parse mp rest (pageIdx + 1) _
            (fun hm => h (List.mem_cons_of_mem _ hm))

/-- With `max_pages=None`, a trace of token-bearing successful pages followed
by an HTTP error accumulates exactly the parsed items of those pages: the
error is caught and the accumulated list is returned. -/
theorem paginated_loop_http (parse : SearchItem → Option VideoPayload) :
    ∀ (pages : List Page) (pageIdx : Nat) (acc : List VideoPayload)
      (rest : List PageOutcome),
      (∀ p ∈ pages, p.nextPageToken.isSome = true) →
      YouTubeService.paginated_loop parse none pageIdx acc
          (pages.map PageOutcome.ok ++ PageOutcome.httpError :: rest) =
        .ok (acc ++ (pages.map (fun p => p.items.filterMap parse)).flatten)
  | [], pageIdx, acc, rest, _ => by
    rw [List.map_nil, List.nil_append, paginated_loop_cons]
    simp [YouTubeService.overMaxPages]
  | p :: pages, pageIdx, acc, rest, h => by
    rw [List.map_cons, List.cons_append, paginated_loop_cons]
    have hover : ¬ YouTubeService.overMaxPages none (pageIdx + 1) = true := by
      simp [YouTubeService.overMaxPages]
    rw [if_neg hover]
    show (match p.nextPageToken with
      | none => Except.ok (acc ++ p.items.filterMap parse)
      | some _ => YouTubeService.paginated_loop parse none (pageIdx + 1)
          (acc ++ p.items.filterMap parse)
          (pages.map PageOutcome.ok ++ PageOutcome.httpError :: rest)) = _
    cases htok : p.nextPageToken with
    | none =>
      have hp := h p (List.mem_cons_self p pages)
      rw [htok] at hp
      exact absurd hp (by simp)
    | some tk =>
      rw [paginated_loop_http parse pages (pageIdx + 1) _ rest
        (fun q hq => h q (List.mem_cons_of_mem _ hq))]
      simp

/-- The tick is a no-op when no keyword is due. -/
theorem tci_collect_next_keyword_none (db : DB) (pagesFor : String → List PageOutcome)
    (tagsFor : String → List String) (today now : Int)
    (hg : Database.get_one_keyword_due_for_collect db today = none) :
    tci_collect_next_keyword db pagesFor tagsFor today now = .ok (none, db) := by
  unfold tci_collect_next_keyword
  rw [hg]

/-- The tick on a selected keyword whose fetch completes: collect, then mark
the keyword collected. -/
theorem tci_collect_next_keyword_some (db : DB) (pagesFor : String → List PageOutcome)
    (tagsFor : String → List String) (today now : Int) (kw : String)
    (vids : List VideoPayload)
    (hg : Database.get_one_keyword_due_for_collect db today = some kw)
    (hs : YouTubeService.search_latest_paginated (pagesFor kw) none = .ok vids) :
    tci_collect_next_keyword db pagesFor tagsFor today now =
      .ok (some kw, Database.set_keyword_updated_today
        (tci_collect_videos db vids tagsFor today now).1 kw today) := by
  unfold tci_collect_next_keyword
  rw [hg]
  show (match YouTubeService.search_latest_paginated (pagesFor kw) none with
    | .error _ => Except.error db
    | .ok vids => Except.ok (some kw, Database.set_keyword_updated_today
        (tci_collect_videos db vids tagsFor today now).1 kw today)) = _
  rw [hs]

/-- The tick on a selected keyword whose fetch raises an uncaught exception:
the exception escapes before any store write and before the mark. -/
theorem tci_collect_next_keyword_err (db : DB) (pagesFor : String → List PageOutcome)
    (tagsFor : String → List String) (today now : Int) (kw : String)
    (hg : Database.get_one_keyword_due_for_collect db today = some kw)
    (hs : YouTubeService.search_latest_paginated (pagesFor kw) none = .error ()) :
    tci_collect_next_keyword db pagesFor tagsFor today now = .error db := by
  unfold tci_collect_next_keyword
  rw [hg]
  show (match YouTubeService.search_latest_paginated (pagesFor kw) none with
    | .error _ => Except.error db
    | .ok vids => Except.ok (some kw, Database.set_keyword_updated_today
        (tci_collect_videos db vids tagsFor today now).1 kw today)) = _
  rw [hs]

/-- An exception-free tick behaves on the keywords table exactly like the
pure rotation tick, whatever the fetch returns. -/
theorem tci_collect_next_keyword_ok (db : DB) (pagesFor : String → List PageOutcome)
    (tagsFor : String → List String) (today now : Int)
    (hok : ∀ kw, ¬ PageOutcome.exn ∈ pagesFor kw) :
    ∃ db', tci_collect_next_keyword db pagesFor tagsFor today now =
        .ok ((keyword_rotation_tick db.keywords today).1, db') ∧
      db'.keywords = (keyword_rotation_tick db.keywords today).2 := by
  cases hpick : Database.pickFirstMin (Database.dueKeywordRows db.keywords today) with
  | none =>
    have hg : Database.get_one_keyword_due_for_collect db today = none := by
      unfold Database.get_one_keyword_due_for_collect
      rw [hpick]
      rfl
    rw [keyword_rotation_tick_none db.keywords today hpick]
    exact ⟨db, tci_collect_next_keyword_none db pagesFor tagsFor today now hg, rfl⟩
  | some r =>
    have hg : Database.get_one_keyword_due_for_collect db today = some r.keyword := by
      unfold Database.get_one_keyword_due_for_collect
      rw [hpick]
      rfl
    obtain ⟨vids, hv⟩ := paginated_loop_no_exn YouTubeService.searchPayloadOfItem none
      (pagesFor r.keyword) 0 [] (hok r.keyword)
    have hv' : YouTubeService.search_latest_paginated (pagesFor r.keyword) none =
        .ok vids := hv
    rw [keyword_rotation_tick_some db.keywords today r hpick]
    refine ⟨Database.set_keyword_updated_today
        (tci_collect_videos db vids tagsFor today now).1 r.keyword today,
      tci_collect_next_keyword_some db pagesFor tagsFor today now r.keyword vids hg hv',
      ?_⟩
    show Database.markKeywordRows
        (tci_collect_videos db vids tagsFor today now).1.keywords r.keyword today = _
    rw [tci_collect_videos_keywords]

/-- One-step unfolding of `run_keyword_ticks` on a successful tick followed by
a successful remainder. -/
theorem run_keyword_ticks_succ_ok (pagesAt : Nat → String → List PageOutcome)
    (tagsAt : Nat → String → List String) (today now : Int) (n : Nat) (db : DB)
    (sel : Option String) (db' : DB) (rest : List String) (dbf : DB)
    (h1 : tci_collect_next_keyword db (pagesAt n) (tagsAt n) today now = .ok (sel, db'))
    (h2 : run_keyword_ticks pagesAt tagsAt today now n db' = .ok (rest, dbf)) :
    run_keyword_ticks pagesAt tagsAt today now (n + 1) db =
      .ok (consSel sel rest, dbf) := by
  show (match tci_collect_next_keyword db (pagesAt n) (tagsAt n) today now with
    | .error db'' => Except.error db''
    | .ok (sel, db') =>
      match run_keyword_ticks pagesAt tagsAt today now n db' with
      | .error dbf => Except.error dbf
      | .ok (rest, dbf) => Except.ok (consSel sel rest, dbf)) = _
  rw [h1]
  show (match run_keyword_ticks pagesAt tagsAt today now n db' with
    | .error dbf => Except.error dbf
    | .ok (rest, dbf) => Except.ok (consSel sel rest, dbf)) = _
  rw [h2]

/-- Exception-free runs of the orchestrator tick agree with the pure keyword
rotation, for every fetch and tag outcome. -/
theorem run_keyword_ticks_rotation (pagesAt : Nat → String → List PageOutcome)
    (tagsAt : Nat → String → List String) (today now : Int)
    (hok : ∀ n kw, ¬ PageOutcome.exn ∈ pagesAt n kw) :
    ∀ (n : Nat) (db : DB),
      ∃ dbf, run_keyword_ticks pagesAt tagsAt today now n db =
          .ok ((run_rotation today n db.keywords).1, dbf) ∧
        dbf.keywords = (run_rotation today n db.keywords).2
  | 0, db => ⟨db, rfl, rfl⟩
  | n + 1, db => by
    obtain ⟨db', htick, hkeys⟩ := tci_collect_next_keyword_ok db (pagesAt n) (tagsAt n)
      today now (hok n)
    obtain ⟨dbf, hrun, hkf⟩ := run_keyword_ticks_rotation pagesAt tagsAt today now hok n db'
    rw [hkeys] at hrun hkf
    refine ⟨dbf, ?_, ?_⟩
    · rw [run_keyword_ticks_succ_ok pagesAt tagsAt today now n db
        (keyword_rotation_tick db.keywords today).1 db' _ dbf htick hrun]
      rw [run_rotation_succ]
    · rw [hkf, run_rotation_succ]

/-- Claim C3: round-robin fairness.  Starting from N keywords all due
(updated_date before today), N consecutive same-day orchestrator ticks —
whatever each fetch returns page by page, as long as the request layer raises
nothing uncaught — select every keyword exactly once: the selection sequence
is a permutation of the keyword list and has no duplicate, so no keyword is
selected twice before all others have been selected. -/
theorem claim_C3_round_robin (db : DB) (pagesAt : Nat → String → List PageOutcome)
    (tagsAt : Nat → String → List String) (today now : Int)
    (hlc : ∀ r ∈ db.keywords, pyLower r.keyword = r.keyword)
    (hnd : (db.keywords.map (fun r => r.keyword)).Nodup)
    (hdue : ∀ r ∈ db.keywords, r.updated_date < today)
    (hok : ∀ n kw, ¬ PageOutcome.exn ∈ pagesAt n kw) :
    ∃ sels dbf,
      run_keyword_ticks pagesAt tagsAt today now db.keywords.length db =
        .ok (sels, dbf) ∧
      sels.Perm (db.keywords.map (fun r => r.keyword)) ∧ sels.Nodup := by
  have hdna : Database.dueKeywordRows db.keywords today = db.keywords := by
    apply List.filter_eq_self.mpr
    intro r hr
    exact decide_eq_true (hdue r hr)
  obtain ⟨dbf, hrun, _⟩ := run_keyword_ticks_rotation pagesAt tagsAt today now hok
    db.keywords.length db
  have hperm := run_rotation_perm today db.keywords.length db.keywords hlc hnd
    (by rw [hdna])
  rw [hdna] at hperm
  exact ⟨_, dbf, hrun, hperm, hperm.nodup_iff.mpr hnd⟩

/-- Witness for C3 on a concrete two-keyword store. -/
theorem claim_C3_round_robin_witness :
    ∃ sels dbf,
      run_keyword_ticks (fun _ _ => []) (fun _ _ => []) 5 9 dbRot.keywords.length dbRot =
        .ok (sels, dbf) ∧
      sels.Perm (dbRot.keywords.map (fun r => r.keyword)) ∧ sels.Nodup :=
  claim_C3_round_robin dbRot (fun _ _ => []) (fun _ _ => []) 5 9
    (by decide) (by decide) (by decide) (fun _ _ => List.not_mem_nil _)

/-- Counterexample to claim C4: a due keyword is selected, the fetch raises a
non-HTTP exception, the tick aborts and the keyword's `updated_date` is left
strictly before today — not equal to today as the claim demands for an
erroring fetch. -/
theorem claim_C4_counterexample :
    Database.get_one_keyword_due_for_collect dbC4 10 = some "it" ∧
    tci_collect_next_keyword dbC4 (fun _ => [PageOutcome.exn]) (fun _ => []) 10 100 =
      .error dbC4 ∧
    ∀ r ∈ dbC4.keywords, ¬ r.updated_date = 10 :=
  ⟨rfl, rfl, by decide⟩

/-- Claim C4 as amended: for every due keyword selected by a tick whose fetch
raises nothing uncaught — including fetches that return zero items and
fetches that fail with an HTTP error (which the fetch layer catches,
returning the partial page list) — the tick completes and sets that keyword's
`updated_date` to today unconditionally.  A fetch that raises an uncaught
exception instead aborts the tick before the mark (see the
counterexample). -/
theorem claim_C4_mark_collected (db : DB) (pagesFor : String → List PageOutcome)
    (tagsFor : String → List String) (today now : Int) (kw : String)
    (hsel : Database.get_one_keyword_due_for_collect db today = some kw)
    (hlc : ∀ r ∈ db.keywords, pyLower r.keyword = r.keyword)
    (hok : ¬ PageOutcome.exn ∈ pagesFor kw) :
    ∃ db', tci_collect_next_keyword db pagesFor tagsFor today now = .ok (some kw, db') ∧
      ∀ r ∈ db'.keywords, r.keyword = kw → r.updated_date = today := by
  obtain ⟨vids, hv⟩ := paginated_loop_no_exn YouTubeService.searchPayloadOfItem none
    (pagesFor kw) 0 [] hok
  have hv' : YouTubeService.search_latest_paginated (pagesFor kw) none = .ok vids := hv
  have hkwlc : pyLower kw = kw := by
    unfold Database.get_one_keyword_due_for_collect at hsel
    cases hpick : Database.pickFirstMin (Database.dueKeywordRows db.keywords today) with
    | none =>
      rw [hpick] at hsel
      exact absurd hsel (by simp)
    | some r0 =>
      rw [hpick] at hsel
      have hk0 : r0.keyword = kw := by simpa using hsel
      rw [← hk0]
      exact hlc r0 (List.mem_filter.mp (pickFirstMin_mem _ _ hpick)).1
  refine ⟨_, tci_collect_next_keyword_some db pagesFor tagsFor today now kw vids hsel hv',
    ?_⟩
  intro r hr hkw
  have hr' : r ∈ Database.markKeywordRows
      (tci_collect_videos db vids tagsFor today now).1.keywords kw today := hr
  rcases List.mem_map.mp hr' with ⟨x, _, hfx⟩
  by_cases hxk : x.keyword = pyLower kw
  · rw [if_pos hxk] at hfx
    rw [← hfx]
  · rw [if_neg hxk] at hfx
    rw [← hfx] at hkw
    exact absurd (by rw [hkw, hkwlc]) hxk

/-- Witness for C4 on a concrete store whose fetch returns zero items. -/
theorem claim_C4_mark_collected_witness :
    ∃ db', tci_collect_next_keyword dbC4 (fun _ => []) (fun _ => []) 10 100 =
        .ok (some "it", db') ∧
      ∀ r ∈ db'.keywords, r.keyword = "it" → r.updated_date = 10 :=
  claim_C4_mark_collected dbC4 (fun _ => []) (fun _ => []) 10 100 "it"
    rfl (by decide) (List.not_mem_nil _)

/-- Claim C10: hiding is idempotent at the public interface: hiding an
already-hidden video succeeds without raising and leaves the hidden set
unchanged, so hide composed with hide equals a single hide for all inputs. -/
theorem claim_C10_hide_idempotent (db : DB) (v : String) :
    (v ∈ db.hidden_videos → Database.hide_video db v = db) ∧
    Database.hide_video (Database.hide_video db v) v = Database.hide_video db v := by
  refine ⟨fun h => by simp [Database.hide_video, h], ?_⟩
  by_cases h : v ∈ db.hidden_videos
  · simp [Database.hide_video, h]
  · simp [Database.hide_video, h]

/-- Witness for C10 at a concrete store. -/
theorem claim_C10_hide_idempotent_witness :
    Database.hide_video dbHideW "x" = dbHideW :=
  (claim_C10_hide_idempotent dbHideW "x").1 (by decide)

/-- Claim C9: `ensure_seed` inserts an absent keyword with
`updated_date = today - 1` (hence immediately due), and is a complete no-op
when the (lowercased) keyword is already present. -/
theorem claim_C9_ensure_seed (db : DB) (kw : String) (today : Int) (nextId : Nat) :
    (pyLower kw ∈ db.keywords.map (fun r => r.keyword) →
      Database.ensure_seed db kw today nextId = db) ∧
    (pyLower kw ∉ db.keywords.map (fun r => r.keyword) →
      Database.ensure_seed db kw today nextId =
        { db with keywords := db.keywords ++
            [{ id := nextId, keyword := pyLower kw, source := "seed",
               created_date := today, updated_date := today - 1 }] } ∧
      today - 1 < today) := by
  constructor
  · intro h
    have hany : db.keywords.any (fun r => decide (r.keyword = pyLower kw)) = true := by
      rcases List.mem_map.mp h with ⟨r, hr, hkr⟩
      exact List.any_eq_true.mpr ⟨r, hr, by simpa using hkr⟩
    simp [Database.ensure_seed, hany]
  · intro h
    have hany : db.keywords.any (fun r => decide (r.keyword = pyLower kw)) = false := by
      by_contra hc
      rw [Bool.not_eq_false, List.any_eq_true] at hc
      rcases hc with ⟨r, hr, hk⟩
      exact h (List.mem_map.mpr ⟨r, hr, of_decide_eq_true hk⟩)
    exact ⟨by simp [Database.ensure_seed, hany], by omega⟩

/-- Witness for C9 at a concrete store: the insertion branch. -/
theorem claim_C9_ensure_seed_witness :
    Database.ensure_seed emptyDB "It" 10 1 =
      { emptyDB with keywords := emptyDB.keywords ++
          [{ id := 1, keyword := pyLower "It", source := "seed",
             created_date := 10, updated_date := 10 - 1 }] } ∧ (10 : Int) - 1 < 10 :=
  (claim_C9_ensure_seed emptyDB "It" 10 1).2 (by decide)

/-- Claim C5: upserting a payload whose video id is already stored keeps the
row count and, position by position, leaves `status`, `watch_updated_at`,
`video_id` and `channel_id` untouched, for any payload contents. -/
theorem claim_C5_upsert_frame (db : DB) (p : VideoPayload) (now : Int)
    (h : ∃ v ∈ db.videos, v.video_id = p.video_id) :
    (Database.upsert_video db p now).videos.length = db.videos.length ∧
    ∀ i (hi : i < db.videos.length) (hi' : i < (Database.upsert_video db p now).videos.length),
      ((Database.upsert_video db p now).videos.get ⟨i, hi'⟩).status =
          (db.videos.get ⟨i, hi⟩).status ∧
      ((Database.upsert_video db p now).videos.get ⟨i, hi'⟩).watch_updated_at =
          (db.videos.get ⟨i, hi⟩).watch_updated_at ∧
      ((Database.upsert_video db p now).videos.get ⟨i, hi'⟩).video_id =
          (db.videos.get ⟨i, hi⟩).video_id ∧
      ((Database.upsert_video db p now).videos.get ⟨i, hi'⟩).channel_id =
          (db.videos.get ⟨i, hi⟩).channel_id := by
  have hany : db.videos.any (fun v => decide (v.video_id = p.video_id)) = true := by
    rcases h with ⟨v, hv, he⟩
    exact List.any_eq_true.mpr ⟨v, hv, by simpa using he⟩
  have hup : Database.upsert_video db p now =
      { db with videos := db.videos.map (fun v =>
          if v.video_id = p.video_id then
            { v with title := p.title, description := p.description.getD "",
                     published_at := p.published_at, last_seen_at := now }
          else v) } := by
    simp [Database.upsert_video, hany]
  rw [hup]
  refine ⟨by simp, ?_⟩
  intro i hi hi'
  simp only [List.get_eq_getElem, List.getElem_map]
  split <;> simp

/-- Witness for C5: re-sighting the watched video of `dbW5` keeps the row
count. -/
theorem claim_C5_upsert_frame_witness :
    (Database.upsert_video dbW5 pW5 9).videos.length = dbW5.videos.length :=
  (claim_C5_upsert_frame dbW5 pW5 9 (by decide)).1

/-- Counterexample to claim C1: `save_tags` on the scenario input stores the
normalized tags `["python", "ai"]` but creates no `source='tag'` keyword row
at all — the keywords table ends with zero such rows, not two. -/
theorem claim_C1_counterexample :
    ((Database.save_tags emptyDB "v1" ["Python", "  AI "] 7).video_tags.map
        (fun r => r.tag) = ["python", "ai"]) ∧
    ¬ ((Database.save_tags emptyDB "v1" ["Python", "  AI "] 7).keywords.filter
        (fun r => decide (r.source = "tag"))).length = 2 := by
  decide

/-- Claim C1 as amended: `save_tags` persists the normalized, deduplicated
tags into `video_tags` only; it never inserts or refreshes any keyword row
(the keywords, videos and hidden-videos tables are untouched), and on the
scenario input `["Python", "  AI "]` the stored tags are exactly
`{"python", "ai"}`. -/
theorem claim_C1_save_tags (db : DB) (video_id : String) (tags : List String)
    (today : Int) :
    ((Database.save_tags db video_id tags today).keywords = db.keywords ∧
     (Database.save_tags db video_id tags today).videos = db.videos ∧
     (Database.save_tags db video_id tags today).hidden_videos = db.hidden_videos) ∧
    (db.video_tags = [] →
      (Database.save_tags db "v1" ["Python", "  AI "] 7).video_tags =
        [{ video_id := "v1", tag := "python", collected_date := 7 },
         { video_id := "v1", tag := "ai", collected_date := 7 }]) := by
  refine ⟨⟨rfl, rfl, rfl⟩, fun h => ?_⟩
  show ((["Python", "  AI "].filter (fun t => !(decide (t = "")) &&
          decide (2 ≤ pyLen (pyStrip t)))).dedup).foldl
        (fun rows raw =>
          let tag := pyTake (pyLower (pyStrip raw)) 255
          if pyLen tag < 2 then rows
          else Database.save_tag_row rows "v1" tag 7) db.video_tags = _
  rw [h]
  decide

/-- `classify_technical` returns `True` whenever classification is disabled,
before even looking at the provider call. -/
theorem classify_disabled_true (cfg : AIConfig) (env : String) (call : AICallOutcome)
    (h : cfg.enabled = false) : KeywordAI.classify_technical cfg env call = true := by
  simp [KeywordAI.classify_technical, h]

/-- `bool(out.get("technical", True))` evaluates to `True` under every
claimed failure mode of the parsed response. -/
theorem classify_verdict_fails (parsed : Option Json)
    (h : classifyFails (.returns parsed)) :
    KeywordAI.classify_verdict parsed = true := by
  match parsed with
  | none => rfl
  | some (.obj fields) =>
    have hf : jsonGet "technical" fields = none := h
    simp [KeywordAI.classify_verdict, hf]
  | some (.null) => exact h.elim
  | some (.bool _) => exact h.elim
  | some (.num _) => exact h.elim
  | some (.str _) => exact h.elim
  | some (.arr _) => exact h.elim

/-- `classify_technical` returns `True` under every claimed failure mode,
for every configuration. -/
theorem classify_fails_true (cfg : AIConfig) (env : String) (call : AICallOutcome)
    (h : classifyFails call) : KeywordAI.classify_technical cfg env call = true := by
  have hm : KeywordAI.classify_call_verdict call = true := by
    cases call with
    | raises => rfl
    | returns parsed => exact classify_verdict_fails parsed h
  unfold KeywordAI.classify_technical
  by_cases he : (!cfg.enabled) = true
  · rw [if_pos he]
  · rw [if_neg he]
    by_cases hp : cfg.provider = "github_models"
    · rw [if_pos hp]
      by_cases ht : (if cfg.api_key = "" then env else cfg.api_key) = ""
      · rw [if_pos ht]
      · rw [if_neg ht]; exact hm
    · rw [if_neg hp]
      by_cases ho : cfg.provider = "openai" ∧ ¬cfg.api_key = ""
      · rw [if_pos ho]; exact hm
      · rw [if_neg ho]

/-- The classification sweep rewrites the videos table pointwise: a row is
promoted exactly when some snapshot entry shares its video id and the
classifier accepted that entry. -/
theorem sweep_videos_char (aiFor : String → String → Bool) (now : Int)
    (L : List (String × String × String)) (db : DB) :
    (L.foldl (fun acc v => if aiFor v.2.1 v.2.2
        then Database.set_watch_status acc v.1 Status.UNWATCHED now else acc) db).videos
      = db.videos.map (fun w =>
          if L.any (fun v => decide (v.1 = w.video_id) && aiFor v.2.1 v.2.2)
          then { w with status := Status.UNWATCHED, watch_updated_at := now } else w) := by
  induction L generalizing db with
  | nil => simp
  | cons v L ih =>
    rw [List.foldl_cons]
    by_cases hai : aiFor v.2.1 v.2.2
    · rw [if_pos hai, ih]
      simp only [Database.set_watch_status, List.map_map]
      refine List.map_congr_left (fun w _ => ?_)
      by_cases hid : v.1 = w.video_id
      · simp [Function.comp, hid, hai]
      · have hid' : ¬ w.video_id = v.1 := fun he => hid he.symm
        have hdec : decide (v.1 = w.video_id) = false := by simp [hid]
        simp only [Function.comp, if_neg hid']
        rw [List.any_cons, hdec, Bool.false_and, Bool.false_or]
    · have hai' : aiFor v.2.1 v.2.2 = false := by
        simpa using hai
      rw [if_neg hai, ih]
      refine List.map_congr_left (fun w _ => ?_)
      rw [List.any_cons, hai', Bool.and_false, Bool.false_or]

/-- Claim C7: `classify_technical` is fail-open — it returns `True` when
classification is disabled, when the AI call throws, when the response is not
valid JSON, and when the parsed object lacks the `technical` key — and under
any of these failure regimes the classification sweep still promotes every
`NEW` video to `UNWATCHED` (and touches nothing else). -/
theorem claim_C7_classify_fail_open :
    (∀ cfg env call, cfg.enabled = false →
        KeywordAI.classify_technical cfg env call = true) ∧
    (∀ cfg env, KeywordAI.classify_technical cfg env .raises = true) ∧
    (∀ cfg env, KeywordAI.classify_technical cfg env (.returns none) = true) ∧
    (∀ cfg env fields, jsonGet "technical" fields = none →
        KeywordAI.classify_technical cfg env (.returns (some (.obj fields))) = true) ∧
    (∀ (db : DB) cfg env (callFor : String → String → AICallOutcome) now,
        (cfg.enabled = false ∨ ∀ t d, classifyFails (callFor t d)) →
        (db.videos.map (fun v => v.video_id)).Nodup →
        (tci_classify_new_videos db
            (fun t d => KeywordAI.classify_technical cfg env (callFor t d)) now).videos =
          db.videos.map (fun v =>
            if v.status = Status.NEW
            then { v with status := Status.UNWATCHED, watch_updated_at := now }
            else v)) := by
  refine ⟨classify_disabled_true, fun cfg env => classify_fails_true cfg env _ trivial,
    fun cfg env => classify_fails_true cfg env _ trivial,
    fun cfg env fields hf => classify_fails_true cfg env _ hf, ?_⟩
  intro db cfg env callFor now hfail hnd
  have hall : ∀ t d, KeywordAI.classify_technical cfg env (callFor t d) = true := by
    rcases hfail with he | hf
    · exact fun t d => classify_disabled_true cfg env _ he
    · exact fun t d => classify_fails_true cfg env _ (hf t d)
  unfold tci_classify_new_videos
  rw [sweep_videos_char (fun t d => KeywordAI.classify_technical cfg env (callFor t d))
    now (Database.get_new_videos db) db]
  refine List.map_congr_left (fun w hw => ?_)
  by_cases hst : w.status = Status.NEW
  · have hany : (Database.get_new_videos db).any
        (fun v => decide (v.1 = w.video_id) &&
          KeywordAI.classify_technical cfg env (callFor v.2.1 v.2.2)) = true := by
      refine List.any_eq_true.mpr ⟨(w.video_id, w.title, w.description), ?_, ?_⟩
      · exact List.mem_map.mpr ⟨w, List.mem_filter.mpr ⟨hw, by simp [hst]⟩, rfl⟩
      · simp [hall]
    simp [hany, hst]
  · have hany : (Database.get_new_videos db).any
        (fun v => decide (v.1 = w.video_id) &&
          KeywordAI.classify_technical cfg env (callFor v.2.1 v.2.2)) = false := by
      by_contra hc
      rw [Bool.not_eq_false, List.any_eq_true] at hc
      rcases hc with ⟨v, hv, hcond⟩
      rcases List.mem_map.mp hv with ⟨u, hu, huv⟩
      have hu' := List.mem_filter.mp hu
      have hid : u.video_id = w.video_id := by
        rw [Bool.and_eq_true] at hcond
        have h1 := hcond.1
        rw [← huv] at h1
        simpa using h1
      have huw : u = w := List.inj_on_of_nodup_map hnd hu'.1 hw hid
      rw [huw] at hu'
      exact hst (by simpa using hu'.2)
    simp [hany, hst]

/-- Witness for C1 at the scenario input on an empty store. -/
theorem claim_C1_save_tags_witness :
    (Database.save_tags emptyDB "v1" ["Python", "  AI "] 7).video_tags =
      [{ video_id := "v1", tag := "python", collected_date := 7 },
       { video_id := "v1", tag := "ai", collected_date := 7 }] :=
  (claim_C1_save_tags emptyDB "x" [] 0).2 rfl

/-- Every character of every run produced by `charRuns p` satisfies `p`. -/
theorem charRuns_chars (p : Char → Bool) :
    ∀ (cs acc : List Char), (∀ c ∈ acc, p c = true) →
      ∀ r ∈ KeywordAI.charRuns p acc cs, ∀ c ∈ r, p c = true
  | [], acc, hacc, r, hr, c, hc => by
    by_cases he : acc.isEmpty
    · rw [KeywordAI.charRuns, if_pos he] at hr
      exact absurd hr (List.not_mem_nil r)
    · rw [KeywordAI.charRuns, if_neg he] at hr
      rcases List.mem_singleton.mp hr with rfl
      exact hacc c (List.mem_reverse.mp hc)
  | d :: ds, acc, hacc, r, hr, c, hc => by
    by_cases hp : p d = true
    · rw [KeywordAI.charRuns, if_pos hp] at hr
      refine charRuns_chars p ds (d :: acc) ?_ r hr c hc
      intro x hx
      rcases List.mem_cons.mp hx with rfl | hx
      · exact hp
      · exact hacc x hx
    · rw [KeywordAI.charRuns, if_neg hp] at hr
      by_cases he : acc.isEmpty
      · rw [if_pos he] at hr
        exact charRuns_chars p ds [] (by simp) r hr c hc
      · rw [if_neg he] at hr
        rcases List.mem_cons.mp hr with rfl | hr
        · exact hacc c (List.mem_reverse.mp hc)
        · exact charRuns_chars p ds [] (by simp) r hr c hc

/-- `uniqKeep acc ws` extends `acc` by a sublist of `ws`. -/
theorem uniqKeep_sublist :
    ∀ (ws acc : List String), ∃ l, KeywordAI.uniqKeep acc ws = acc ++ l ∧ l.Sublist ws
  | [], acc => ⟨[], by simp [KeywordAI.uniqKeep], List.nil_sublist _⟩
  | w :: ws, acc => by
    by_cases h : w ∈ KeywordAI.stopWords ∨ w ∈ acc
    · rcases uniqKeep_sublist ws acc with ⟨l, hl, hs⟩
      exact ⟨l, by rw [KeywordAI.uniqKeep, if_pos h]; exact hl, hs.cons w⟩
    · rcases uniqKeep_sublist ws (acc ++ [w]) with ⟨l, hl, hs⟩
      refine ⟨w :: l, ?_, hs.cons₂ w⟩
      rw [KeywordAI.uniqKeep, if_neg h, hl, List.append_assoc]
      rfl

/-- `uniqKeep` preserves freedom from duplicates. -/
theorem uniqKeep_nodup :
    ∀ (ws acc : List String), acc.Nodup → (KeywordAI.uniqKeep acc ws).Nodup
  | [], acc, h => by
    rw [KeywordAI.uniqKeep]
    exact h
  | w :: ws, acc, h => by
    by_cases hc : w ∈ KeywordAI.stopWords ∨ w ∈ acc
    · rw [KeywordAI.uniqKeep, if_pos hc]
      exact uniqKeep_nodup ws acc h
    · rw [KeywordAI.uniqKeep, if_neg hc]
      have hw : ¬ w ∈ acc := fun hx => hc (Or.inr hx)
      refine uniqKeep_nodup ws (acc ++ [w]) ?_
      simp [List.nodup_append, h, hw]

/-- Every element kept by `uniqKeep` comes from the accumulator or is a
non-stop-word element of the input. -/
theorem uniqKeep_mem :
    ∀ (ws acc : List String) (t : String), t ∈ KeywordAI.uniqKeep acc ws →
      t ∈ acc ∨ (t ∈ ws ∧ ¬ t ∈ KeywordAI.stopWords)
  | [], acc, t, h => Or.inl (by rw [KeywordAI.uniqKeep] at h; exact h)
  | w :: ws, acc, t, h => by
    by_cases hc : w ∈ KeywordAI.stopWords ∨ w ∈ acc
    · rw [KeywordAI.uniqKeep, if_pos hc] at h
      rcases uniqKeep_mem ws acc t h with h1 | ⟨h2, h3⟩
      · exact Or.inl h1
      · exact Or.inr ⟨List.mem_cons_of_mem w h2, h3⟩
    · rw [KeywordAI.uniqKeep, if_neg hc] at h
      rcases uniqKeep_mem ws (acc ++ [w]) t h with h1 | ⟨h2, h3⟩
      · rcases List.mem_append.mp h1 with h1 | h1
        · exact Or.inl h1
        · rcases List.mem_singleton.mp h1 with rfl
          exact Or.inr ⟨List.mem_cons_self t ws, fun hs => hc (Or.inl hs)⟩
      · exact Or.inr ⟨List.mem_cons_of_mem w h2, h3⟩

/-- Counterexample to claim C8: with AI disabled, `extract("C++", "")` returns
the token `"c++"`, which is not an alphanumeric/Hangul run — the tokenizer's
alphabet also admits `+`, `#` and `.`. -/
theorem claim_C8_counterexample :
    KeywordAI.extract cfgAIDisabled "" (.returns []) "C++" "" = ["c++"] ∧
    ¬ (∀ t ∈ KeywordAI.extract cfgAIDisabled "" (.returns []) "C++" "",
        ∀ c ∈ t.toList, specAlnumHangulChar c = true) := by
  decide

/-- Claim C8 as amended: whenever AI extraction is disabled or yields nothing,
`extract` returns at most 5 tokens, deduplicated preserving first-seen order
(a duplicate-free sublist of the token stream), each a run of at least 2
characters of the tokenizer's alphabet (ASCII alphanumerics, Hangul, `+`,
`#`, `.`) taken from the lowercased `title + " " + description`, with the
fixed stop-word set removed. -/
theorem claim_C8_extract_fallback (cfg : AIConfig) (env : String)
    (call : KeywordAI.ExtractCallOutcome) (title description : String)
    (h : ∀ ks, KeywordAI.ai_extract_result cfg env call = some ks → ks = []) :
    (KeywordAI.extract cfg env call title description).length ≤ 5 ∧
    (KeywordAI.extract cfg env call title description).Nodup ∧
    (KeywordAI.extract cfg env call title description).Sublist
      (KeywordAI.findallTokens (pyLower (title ++ " " ++ description)).toList) ∧
    ∀ t ∈ KeywordAI.extract cfg env call title description,
      t ∈ KeywordAI.findallTokens (pyLower (title ++ " " ++ description)).toList ∧
      ¬ t ∈ KeywordAI.stopWords ∧ 2 ≤ t.toList.length ∧
      ∀ c ∈ t.toList, KeywordAI.tokenChar c = true := by
  have hex : KeywordAI.extract cfg env call title description =
      KeywordAI.heuristic_extract title description := by
    unfold KeywordAI.extract
    cases hr : KeywordAI.ai_extract_result cfg env call with
    | none => rfl
    | some ks =>
      have hks := h ks hr
      subst hks
      rfl
  rw [hex]
  unfold KeywordAI.heuristic_extract
  dsimp only
  rcases uniqKeep_sublist
      (KeywordAI.findallTokens (pyLower (title ++ " " ++ description)).toList) []
    with ⟨l, hl, hs⟩
  rw [List.nil_append] at hl
  refine ⟨List.length_take_le 5 _, ?_, ?_, ?_⟩
  · exact ((List.take_sublist 5 _).nodup
      (uniqKeep_nodup _ [] List.nodup_nil))
  · rw [hl]
    exact (List.take_sublist 5 l).trans hs
  · intro t ht
    have htu : t ∈ KeywordAI.uniqKeep []
        (KeywordAI.findallTokens (pyLower (title ++ " " ++ description)).toList) :=
      (List.take_sublist 5 _).subset ht
    rcases uniqKeep_mem _ [] t htu with h0 | ⟨hmem, hstop⟩
    · exact absurd h0 (List.not_mem_nil t)
    refine ⟨hmem, hstop, ?_, ?_⟩
    · rcases List.mem_map.mp hmem with ⟨run, hrun, hmk⟩
      have hrf := List.mem_filter.mp hrun
      rw [← hmk]
      exact of_decide_eq_true hrf.2
    · intro c hc
      rcases List.mem_map.mp hmem with ⟨run, hrun, hmk⟩
      have hrf := List.mem_filter.mp hrun
      rw [← hmk] at hc
      exact charRuns_chars KeywordAI.tokenChar _ [] (by simp) run hrf.1 c hc

/-- Witness for C8: a concrete disabled-AI extraction obeys the cap. -/
theorem claim_C8_extract_fallback_witness :
    (KeywordAI.extract cfgAIDisabled "" (.returns []) "C++ and Rust news" "").length ≤ 5 :=
  (claim_C8_extract_fallback cfgAIDisabled "" (.returns []) "C++ and Rust news" ""
    (fun _ hk => (Option.some.inj hk).symm)).1

/-- Counterexample to claim C2: a request-layer exception that is not a
`requests.HTTPError` (e.g. a connection error) escapes both paginated
fetchers instead of returning the items accumulated so far. -/
theorem claim_C2_counterexample :
    YouTubeService.search_latest_paginated
        [PageOutcome.ok ⟨[], some "tok"⟩, PageOutcome.exn] none = .error () ∧
    YouTubeService.channel_latest_paginated "ch"
        [PageOutcome.ok ⟨[], some "tok"⟩, PageOutcome.exn] none = .error () :=
  ⟨rfl, rfl⟩

/-- Claim C2 as amended: when a page request fails with an HTTP status error
(`raise_for_status`), both fetchers log and return exactly the items
accumulated from the pages already retrieved; and as long as the request
layer raises nothing but HTTP status errors, no exception escapes either
fetcher.  Other request-layer exceptions do escape (see the
counterexample). -/
theorem claim_C2_fail_open :
    (∀ (pages : List Page) (rest : List PageOutcome) (channel_id : String),
      (∀ p ∈ pages, p.nextPageToken.isSome = true) →
      YouTubeService.search_latest_paginated
          (pages.map PageOutcome.ok ++ PageOutcome.httpError :: rest) none =
        .ok ((pages.map (fun p =>
          p.items.filterMap YouTubeService.searchPayloadOfItem)).flatten) ∧
      YouTubeService.channel_latest_paginated channel_id
          (pages.map PageOutcome.ok ++ PageOutcome.httpError :: rest) none =
        .ok ((pages.map (fun p =>
          p.items.filterMap (YouTubeService.channelPayloadOfItem channel_id))).flatten)) ∧
    (∀ (responses : List PageOutcome) (mp : Option Nat) (channel_id : String),
      ¬ PageOutcome.exn ∈ responses →
      (∃ l, YouTubeService.search_latest_paginated responses mp = .ok l) ∧
      (∃ l, YouTubeService.channel_latest_paginated channel_id responses mp = .ok l)) := by
  constructor
  · intro pages rest channel_id htok
    constructor
    · rw [YouTubeService.search_latest_paginated,
        paginated_loop_http YouTubeService.searchPayloadOfItem pages 0 [] rest htok]
      rw [List.nil_append]
    · rw [YouTubeService.channel_latest_paginated,
        paginated_loop_http (YouTubeService.channelPayloadOfItem channel_id) pages 0 [] rest htok]
      rw [List.nil_append]
  · intro responses mp channel_id hne
    exact ⟨paginated_loop_no_exn YouTubeService.searchPayloadOfItem mp responses 0 [] hne,
      paginated_loop_no_exn (YouTubeService.channelPayloadOfItem channel_id) mp responses 0 [] hne⟩

/-- Witness for C2's amended theorem: a concrete one-page trace ending in an
HTTP error yields the parsed item of the first page. -/
theorem claim_C2_fail_open_witness :
    YouTubeService.search_latest_paginated
        [PageOutcome.ok ⟨[⟨some "v", some "c", some "t", some "T", some "D",
            some "2024-01-01T00:00:00Z"⟩], some "tok"⟩, PageOutcome.httpError] none =
      .ok [{ video_id := "v", channel_id := "c", channel_title := "t", title := "T",
             description := some "D", published_at := "2024-01-01 00:00:00" }] := by
  exact (((claim_C2_fail_open.1
    [⟨[⟨some "v", some "c", some "t", some "T", some "D",
        some "2024-01-01T00:00:00Z"⟩], some "tok"⟩] [] "ch") (by decide)).1).trans (by rfl)

/-- Witness for C7: a concrete configured provider with a JSON object lacking
the `technical` key still classifies as technical. -/
theorem claim_C7_classify_fail_open_witness :
    KeywordAI.classify_technical ⟨true, "github_models", "k", "m", ""⟩ ""
      (.returns (some (.obj [("x", Json.bool true)]))) = true :=
  claim_C7_classify_fail_open.2.2.2.1 ⟨true, "github_models", "k", "m", ""⟩ ""
    [("x", Json.bool true)] rfl

/-- Claim C6: for every query string, status filter and limit/offset, neither
`list_videos` nor `list_videos_count` returns or counts a video whose id is in
`hidden_videos`: every returned row's id is unhidden, and the count equals the
number of rows the (unlimited) listing returns — all of them unhidden. -/
theorem claim_C6_hidden_excluded (db : DB) (query status : String)
    (limit offset : Option Nat) :
    (∀ row ∈ Database.list_videos db query status limit offset,
        ¬ row.1 ∈ db.hidden_videos) ∧
    Database.list_videos_count db query status =
      (Database.list_videos db query status none none).length := by
  constructor
  · intro row hrow
    unfold Database.list_videos at hrow
    rcases List.mem_map.mp hrow with ⟨v, hv, hproj⟩
    have hvs : v ∈ List.insertionSort Database.videoOrder
        (db.videos.filter (Database.videoWhere db query status)) := by
      cases limit with
      | none => exact hv
      | some l =>
        cases offset with
        | none => exact hv
        | some o =>
          exact ((List.take_sublist _ _).trans (List.drop_sublist _ _)).subset hv
    have hvf : v ∈ db.videos.filter (Database.videoWhere db query status) :=
      (List.perm_insertionSort Database.videoOrder _).mem_iff.mp hvs
    have hw : Database.videoWhere db query status v = true :=
      (List.mem_filter.mp hvf).2
    unfold Database.videoWhere Database.notHidden at hw
    rw [Bool.and_eq_true] at hw
    have hnh := hw.2
    rw [Bool.not_eq_true'] at hnh
    have : ¬ v.video_id ∈ db.hidden_videos := of_decide_eq_false hnh
    rw [← hproj]
    exact this
  · unfold Database.list_videos Database.list_videos_count
    dsimp only
    rw [List.length_map, (List.perm_insertionSort Database.videoOrder _).length_eq]

/-- Witness for C6 on a store with one hidden and one visible video. -/
theorem claim_C6_hidden_excluded_witness :
    ¬ ("v1", "T1", "c", "2024", Status.NEW).1 ∈ dbC6.hidden_videos :=
  (claim_C6_hidden_excluded dbC6 "" "" none none).1
    ("v1", "T1", "c", "2024", Status.NEW) (by decide)

end TciCore
